import Mathlib

/-!
Verification of the poorman-httpcache repository: a shallow embedding of the
quota tollgate (Redis Lua scripts plus the Go-side QuotaManager), the usage
archiver, the cache middleware, and the assembled HTTP pipeline, together
with theorems settling the specification claims.
-/

set_option maxRecDepth 10000

/-- Decidable equality for `Except`, used to evaluate script runs on
concrete inputs. -/
instance exceptDecEq {ε α : Type} [DecidableEq ε] [DecidableEq α] :
    DecidableEq (Except ε α)
  | .error e, .error f =>
    if h : e = f then .isTrue (by rw [h]) else .isFalse (by simp [h])
  | .ok x, .ok y =>
    if h : x = y then .isTrue (by rw [h]) else .isFalse (by simp [h])
  | .error _, .ok _ => .isFalse (by simp)
  | .ok _, .error _ => .isFalse (by simp)

/-! ## Redis state model

Redis keys are typed: a key holds either a flat string value (here modelled
as an integer, since every value the scripts store at string keys is an
integer) or a hash (a field map).  An operation of the wrong type for a
key's current contents fails with a WRONGTYPE error, which aborts the
whole Lua script.  TTLs are not modelled: no claim depends on expiry. -/

/-- Redis database state: flat string keys (integer-valued) and hash keys. -/
structure RedisState where
  strings : List (String × Int)
  hashes  : List (String × List (String × Int))
deriving Repr, DecidableEq

namespace RedisState

/-- Look up a flat string key. -/
def strLookup (st : RedisState) (k : String) : Option Int :=
  (st.strings.find? (fun p => p.1 == k)).map (·.2)

/-- Look up a field of a hash key. -/
def hashLookup (st : RedisState) (k f : String) : Option Int :=
  match st.hashes.find? (fun p => p.1 == k) with
  | none => none
  | some (_, fields) => (fields.find? (fun p => p.1 == f)).map (·.2)

/-- Whether a key currently holds a flat string value. -/
def isStr (st : RedisState) (k : String) : Bool :=
  (st.strings.find? (fun p => p.1 == k)).isSome

/-- Whether a key currently holds a hash. -/
def isHash (st : RedisState) (k : String) : Bool :=
  (st.hashes.find? (fun p => p.1 == k)).isSome

/-- GET: returns the string value; WRONGTYPE if the key holds a hash. -/
def get (st : RedisState) (k : String) : Except String (Option Int) :=
  if st.isHash k then .error "WRONGTYPE"
  else .ok (st.strLookup k)

/-- SET: stores a flat string value, clobbering any previous value of any
type at that key (Redis SET overwrites regardless of type). -/
def set (st : RedisState) (k : String) (v : Int) : RedisState :=
  { strings := (k, v) :: st.strings.filter (fun p => p.1 != k),
    hashes := st.hashes.filter (fun p => p.1 != k) }

/-- HGET: returns the hash field value; WRONGTYPE if the key holds a flat
string value. -/
def hget (st : RedisState) (k f : String) : Except String (Option Int) :=
  if st.isStr k then .error "WRONGTYPE"
  else .ok (st.hashLookup k f)

/-- HSET: sets a hash field; WRONGTYPE if the key holds a flat string. -/
def hset (st : RedisState) (k f : String) (v : Int) :
    Except String RedisState :=
  if st.isStr k then .error "WRONGTYPE"
  else
    let fields := match st.hashes.find? (fun p => p.1 == k) with
      | none => []
      | some (_, fs) => fs
    .ok { st with hashes :=
            (k, (f, v) :: fields.filter (fun p => p.1 != f)) ::
              st.hashes.filter (fun p => p.1 != k) }

/-- INCRBY: increments a string key, creating it at 0 if absent;
WRONGTYPE if the key holds a hash. -/
def incrBy (st : RedisState) (k : String) (n : Int) :
    Except String (RedisState × Int) :=
  if st.isHash k then .error "WRONGTYPE"
  else
    let cur := (st.strLookup k).getD 0
    .ok (st.set k (cur + n), cur + n)

/-- DECRBY, expressed via INCRBY as in Redis. -/
def decrBy (st : RedisState) (k : String) (n : Int) :
    Except String (RedisState × Int) :=
  st.incrBy k (-n)

/-- GETDEL: returns the string value (if any) and removes the key. -/
def getDel (st : RedisState) (k : String) : Except String (Option Int) × RedisState :=
  if st.isHash k then (.error "WRONGTYPE", st)
  else ((.ok (st.strLookup k)),
        { st with strings := st.strings.filter (fun p => p.1 != k) })

end RedisState

/-! ## The three Lua scripts

Each script is embedded as a state transformer over `RedisState` returning
`Except` (a WRONGTYPE abort) of the new state and the script's return pair.
Parameters mirror the scripts' locals; the KEYS/ARGV positions each local is
read from are noted in the doc comments. -/

/-- The reserve script (reserve.lua).  KEYS[1] is `quotaKey`, KEYS[2] is
`metricKey`; ARGV[1] is `hasQuota` (the string comparison with "true" is
already applied), ARGV[2] is `amount`.  `minuteTs` is the Redis TIME
truncated to the minute computed at line 9 of the script.  Returns the
new state plus the pair `(remaining, status)` the script returns. -/
def reserveLua (st : RedisState) (quotaKey metricKey : String)
    (hasQuota : Bool) (amount : Int) (minuteTs : Int) :
    Except String (RedisState × Int × String) :=
  let usageKey := metricKey ++ ":" ++ toString minuteTs
  if hasQuota then
    match st.get quotaKey with
    | .error e => .error e
    | .ok none => .ok (st, -1, "LOAD_REQUIRED")
    | .ok (some remaining) =>
      if remaining < amount then .ok (st, remaining, "EXHAUSTED")
      else
        let st1 := st.set quotaKey (remaining - amount)
        match st1.incrBy usageKey amount with
        | .error e => .error e
        | .ok (st2, _) => .ok (st2, remaining - amount, "OK")
  else
    match st.incrBy usageKey amount with
    | .error e => .error e
    | .ok (st2, _) => .ok (st2, 999999, "OK")

/-- The refund script (refund.lua).  KEYS[1] is `quotaKey`, KEYS[2] is
`usageKey`; ARGV[1] is `serviceKey`, ARGV[2] is `amount`, ARGV[3] is
`timestamp`.  Returns the new state plus `(newRemaining, status)`. -/
def refundLua (st : RedisState) (quotaKey usageKey : String)
    (serviceKey : String) (amount : Int) (timestamp : Int) :
    Except String (RedisState × Int × String) :=
  match st.hget quotaKey serviceKey with
  | .error e => .error e
  | .ok none => .ok (st, 0, "NO_QUOTA")
  | .ok (some remaining) =>
    let newRemaining := remaining + amount
    match st.hset quotaKey serviceKey newRemaining with
    | .error e => .error e
    | .ok st1 =>
      match st1.hset quotaKey "last_refund" timestamp with
      | .error e => .error e
      | .ok st2 =>
        match st2.get usageKey with
        | .error e => .error e
        | .ok none => .ok (st2, newRemaining, "OK")
        | .ok (some currentBuffer) =>
          if currentBuffer >= amount then
            match st2.decrBy usageKey amount with
            | .error e => .error e
            | .ok (st3, _) => .ok (st3, newRemaining, "OK")
          else
            .ok (st2.set usageKey 0, newRemaining, "OK")

/-- The write sequence shared by both branches of the set-and-reserve
script: HSET the remaining quota, HSET `last_used`, INCRBY the usage
buffer, and return `(tostring(remaining), "OK")`. -/
def setAndReserveWrite (st : RedisState) (quotaKey usageKey : String)
    (serviceKey : String) (remaining amount : Int) (timestamp : Int) :
    Except String (RedisState × String × String) :=
  match st.hset quotaKey serviceKey remaining with
  | .error e => .error e
  | .ok st1 =>
    match st1.hset quotaKey "last_used" timestamp with
    | .error e => .error e
    | .ok st2 =>
      match st2.incrBy usageKey amount with
      | .error e => .error e
      | .ok (st3, _) => .ok (st3, toString remaining, "OK")

/-- The set-and-reserve script (second document of sync_collector.lua).
KEYS[1] is `quotaKey`, KEYS[2] is `usageKey`; ARGV[1] is `serviceKey`,
ARGV[2] is `initialQuota`, ARGV[3] is `amount`, ARGV[4] is `timestamp`.
The script stringifies its first return component with `tostring`, hence
the `String` in the result pair.  The HSET-HSET-INCRBY write sequence,
identical in both branches, is factored into `setAndReserveWrite`. -/
def setAndReserveLua (st : RedisState) (quotaKey usageKey : String)
    (serviceKey : String) (initialQuota amount : Int) (timestamp : Int) :
    Except String (RedisState × String × String) :=
  match st.hget quotaKey serviceKey with
  | .error e => .error e
  | .ok none =>
    if initialQuota < amount then
      .ok (st, toString initialQuota, "EXHAUSTED")
    else
      setAndReserveWrite st quotaKey usageKey serviceKey
        (initialQuota - amount) amount timestamp
  | .ok (some remaining) =>
    if remaining < amount then
      .ok (st, toString remaining, "EXHAUSTED")
    else
      setAndReserveWrite st quotaKey usageKey serviceKey
        (remaining - amount) amount timestamp

/-! ## Go-side QuotaManager result conversion

The reserve / set-and-reserve scripts return a two-element Lua array.
go-redis delivers a Lua number as an `int64` and a Lua string as a
`string`; `RVal` is that delivered value.  `reserveGoPost` embeds the
conversion code of `QuotaManager.Reserve` (the statements after
`ReserveQuotaScript.Run`): the unchecked type assertion
`values[0].(string)` is modelled by the `panicked` outcome when the first
element is an integer. -/

/-- A value delivered by go-redis for one element of a Lua array reply. -/
inductive RVal where
  | int (i : Int)
  | str (s : String)
deriving Repr, DecidableEq

/-- Delivery of a script returning a Lua (number, string) pair: the number
arrives as an integer, the string as a string. -/
def deliverIntStr (p : Int × String) : List RVal :=
  [RVal.int p.1, RVal.str p.2]

/-- Delivery of a script returning a Lua (string, string) pair. -/
def deliverStrStr (p : String × String) : List RVal :=
  [RVal.str p.1, RVal.str p.2]

/-- Outcome of a Go function returning `(bool, error)` that may also panic
on a failed unchecked type assertion. -/
inductive GoReserve where
  | panicked
  | ret (ok : Bool) (err : Option String)
deriving Repr, DecidableEq

/-- Whether the outcome is a returned error, `(false, err)` in Go. -/
def GoReserve.isError : GoReserve → Bool
  | .ret false (some _) => true
  | _ => false

/-- Model of Go `strconv.ParseInt(s, 10, 64)`: optional sign, at least one
digit, all digits, result within the signed 64-bit range. -/
def goParseInt (s : String) : Option Int :=
  let (sign, rest) : Int × List Char :=
    match s.data with
    | '+' :: r => (1, r)
    | '-' :: r => (-1, r)
    | r => (1, r)
  if rest.isEmpty || !(rest.all Char.isDigit) then none
  else
    let n : Nat := rest.foldl (fun acc c => acc * 10 + (c.toNat - 48)) 0
    let v : Int := sign * n
    if v < -(2 ^ 63) || 2 ^ 63 - 1 < v then none else some v

/-- Conversion and status dispatch of `QuotaManager.Reserve` applied to the
delivered script result.  `sav` is the value of the recursive call
`qm.setAndReserve(ctx, keyMeta, amount)` taken on `LOAD_REQUIRED`. -/
def reserveGoPost (values : List RVal) (sav : GoReserve) : GoReserve :=
  if values.length != 2 then
    .ret false (some "ReserveQuotaScript.Run: expected 2")
  else
    match values[0]? with
    | some (RVal.str s) =>
      match goParseInt s with
      | none => .ret false (some "ReserveQuotaScript.Run: result[0] expected int64")
      | some _ =>
        match values[1]? with
        | some (RVal.str status) =>
          if status == "LOAD_REQUIRED" then sav
          else if status == "EXHAUSTED" then .ret false none
          else if status == "OK" then .ret true none
          else .ret false (some ("ReserveQuotaScript.Run: result[1] unknown status: " ++ status))
        | _ => .ret false (some "ReserveQuotaScript.Run: result[1] expected string")
    | some (RVal.int _) => .panicked
    | none => .ret false (some "ReserveQuotaScript.Run: expected 2")

/-- Conversion and status dispatch of `QuotaManager.setAndReserve`.
`hasQuota` is `keyMeta.HasQuota`; `quotaLoad` is the result of
`metaStore.GetQuota`; `savRun` is the delivered result of
`SetAndReserveScript.Run` (or its transport error). -/
def setAndReserveGo (hasQuota : Bool) (quotaLoad : Except String Int)
    (savRun : Except String (List RVal)) : GoReserve :=
  if !hasQuota then
    .ret true none
  else
    match quotaLoad with
    | .error e => .ret false (some ("failed to load quota: " ++ e))
    | .ok _ =>
      match savRun with
      | .error e => .ret false (some ("SetAndReserveScript.Run: " ++ e))
      | .ok values =>
        if values.length != 2 then
          .ret false (some "SetAndReserveScript.Run: expected 2")
        else
          match values[0]? with
          | some (RVal.str s) =>
            match goParseInt s with
            | none => .ret false (some "SetAndReserveScript.Run: result[0] expected int64")
            | some _ =>
              match values[1]? with
              | some (RVal.str status) =>
                if status == "EXHAUSTED" then .ret false none
                else if status == "OK" then .ret true none
                else .ret false (some ("SetAndReserveScript.Run: result[1] unknown status: " ++ status))
              | _ => .ret false (some "SetAndReserveScript.Run: result[1] expected string")
          | some (RVal.int _) => .panicked
          | none => .ret false (some "SetAndReserveScript.Run: expected 2")

/-- Full outcome of `QuotaManager.Reserve`: transport error of the reserve
script run, then the conversion and dispatch, with the `LOAD_REQUIRED`
branch delegating to `setAndReserveGo`. -/
def reserveGo (hasQuota : Bool) (scriptRun : Except String (List RVal))
    (quotaLoad : Except String Int) (savRun : Except String (List RVal)) :
    GoReserve :=
  match scriptRun with
  | .error e => .ret false (some ("ReserveQuotaScript.Run: " ++ e))
  | .ok values => reserveGoPost values (setAndReserveGo hasQuota quotaLoad savRun)

/-! ## Usage archiver

`UsageTracker.Archive` scans `usage:*`, splits each key on `:`, requires
exactly four segments whose last three parse as base-10 64-bit integers,
GETDELs the counter, skips non-positive counts, and upserts the count into
the durable minute-usage table.  The durable upsert itself (dbsqlc
`UpsertMinuteUsage`) is not in the sources.

Modelled from the spec: `upsertMinuteUsage` is the missing durable upsert,
"additive upsert on the composite key `(key_id, service_id, minute_ts)`"
(i.e. idempotent on the tuple, monotonic add); upserts are taken to
succeed, so the retry re-deposit branch of `Archive` is not exercised. -/

/-- A row of the durable minute-usage table. -/
structure UsageRow where
  apiKeyId : Int
  serviceId : Int
  minuteTs : Int
  amount : Int
deriving Repr, DecidableEq

/-- Additive upsert on `(apiKeyId, serviceId, minuteTs)`. -/
def upsertMinuteUsage (db : List UsageRow) (r : UsageRow) : List UsageRow :=
  match db.find? (fun x => x.apiKeyId == r.apiKeyId && x.serviceId == r.serviceId
      && x.minuteTs == r.minuteTs) with
  | none => r :: db
  | some x =>
    { x with amount := x.amount + r.amount } ::
      db.filter (fun y => !(y.apiKeyId == r.apiKeyId && y.serviceId == r.serviceId
        && y.minuteTs == r.minuteTs))

/-- Total durable amount recorded for a `(keyId, serviceId, minuteTs)` tuple. -/
def durableAmount (db : List UsageRow) (a s m : Int) : Int :=
  ((db.find? (fun x => x.apiKeyId == a && x.serviceId == s && x.minuteTs == m)).map
    (·.amount)).getD 0

/-- Splitting a character list on `:` (Go `strings.Split(key, ":")`). -/
def splitColsAux : List Char → List Char → List String
  | [], acc => [String.mk acc.reverse]
  | c :: rest, acc =>
    if c = ':' then String.mk acc.reverse :: splitColsAux rest []
    else splitColsAux rest (c :: acc)

/-- Go `strings.Split(s, ":")`. -/
def splitCols (s : String) : List String :=
  splitColsAux s.data []

/-- The `usage:*` scan pattern: a `usage:` prefix. -/
def matchesUsage (k : String) : Bool :=
  "usage:".data.isPrefixOf k.data

/-- Parse of a scanned key inside `Archive`: split on `:`, require four
segments, `strconv.ParseInt` on segments 1..3 (segment 0 is not inspected
beyond the `usage:*` scan match). -/
def parseUsageKey (k : String) : Option (Int × Int × Int) :=
  match splitCols k with
  | [_, p1, p2, p3] =>
    match goParseInt p1, goParseInt p2, goParseInt p3 with
    | some a, some s, some m => some (a, s, m)
    | _, _, _ => none
  | _ => none

/-- One iteration of the `Archive` scan loop for the key `k`. -/
def archiveStep (acc : RedisState × List UsageRow) (k : String) :
    RedisState × List UsageRow :=
  let (st, db) := acc
  if !(matchesUsage k) then acc
  else
    match parseUsageKey k with
    | none => acc
    | some (a, s, m) =>
      match st.getDel k with
      | (Except.ok (some v), st1) =>
        if v ≤ 0 then (st1, db)
        else (st1, upsertMinuteUsage db ⟨a, s, m, v⟩)
      | (Except.ok none, st1) => (st1, db)
      | (Except.error _, _) => acc

/-- `UsageTracker.Archive` over a snapshot of the keyspace: every key is
visited once; only keys matching `usage:*` are processed. -/
def archive (st : RedisState) (db : List UsageRow) :
    RedisState × List UsageRow :=
  (st.strings.map (·.1) ++ st.hashes.map (·.1)).foldl archiveStep (st, db)

/-! ## Fingerprints and the cache middleware

Requests carry a method, a URL path, decoded query parameters (as
`url.Values` does, one entry per parameter name), and an optional body.
Query re-encoding (`url.Values.Encode`) sorts parameter names; the
percent-escaping it applies is the identity on the unreserved ASCII used
here and is not modelled.  Instants are integers; `time.Time` formatting
of the `Expires` header is abstracted as `toString` of the instant. -/

/-- Byte strings; a Go `[]byte`. -/
abbrev Bytes := List Nat

/-- An HTTP request as the cache middleware sees it. -/
structure Request where
  method : String
  path : String
  query : List (String × List String)
  body : Option Bytes
deriving Repr, DecidableEq

/-- Insert into a `≤`-sorted list of strings. -/
def insertSorted (x : String) : List String → List String
  | [] => [x]
  | y :: ys => if x ≤ y then x :: y :: ys else y :: insertSorted x ys

/-- Ascending sort of strings (the `sort.Slice` call of `sortURLParams`). -/
def sortStrings (l : List String) : List String :=
  l.foldr insertSorted []

/-- Insert into a list of query entries sorted by parameter name. -/
def insertByKey (x : String × List String) :
    List (String × List String) → List (String × List String)
  | [] => [x]
  | y :: ys => if x.1 ≤ y.1 then x :: y :: ys else y :: insertByKey x ys

/-- Go `url.Values.Encode`: parameter names in sorted order, each value as
`name=value`, joined with `&`. -/
def encodeQuery (q : List (String × List String)) : String :=
  String.intercalate "&"
    ((q.foldr insertByKey []).flatMap (fun p => p.2.map (fun v => p.1 ++ "=" ++ v)))

/-- `r.URL.String()` for a path plus encoded query. -/
def urlString (path : String) (q : List (String × List String)) : String :=
  if encodeQuery q = "" then path else path ++ "?" ++ encodeQuery q

/-- `sortURLParams`: sorts each parameter's value list in place. -/
def sortURLParams (q : List (String × List String)) :
    List (String × List String) :=
  q.map (fun p => (p.1, sortStrings p.2))

/-- Deleting a parameter from the query map (`delete(params, key)`). -/
def eraseParam (q : List (String × List String)) (k : String) :
    List (String × List String) :=
  q.filter (fun p => p.1 != k)

/-- Whether a parameter name is present (`params[key]` comma-ok). -/
def hasParam (q : List (String × List String)) (k : String) : Bool :=
  (q.find? (fun p => p.1 == k)).isSome

/-- Bytes of a string (ASCII; all URLs in scope are ASCII). -/
def strBytes (s : String) : Bytes :=
  s.data.map Char.toNat

/-- One step of 64-bit FNV-1a. -/
def fnv1aStep (h b : Nat) : Nat :=
  ((h ^^^ b) * 1099511628211) % 2 ^ 64

/-- 64-bit FNV-1a over a byte string. -/
def fnv1a64 (bs : Bytes) : Nat :=
  bs.foldl fnv1aStep 14695981039346656037

/-- `generateKey`: FNV-1a of the URL string. -/
def generateKey (url : String) : Nat :=
  fnv1a64 (strBytes url)

/-- `generateKeyWithBody`: FNV-1a of the URL string followed by the body. -/
def generateKeyWithBody (url : String) (body : Bytes) : Nat :=
  fnv1a64 (strBytes url ++ body)

/-- The cached response record (`cache.Response`). -/
structure CachedResponse where
  value : Bytes
  header : List (String × List String)
  expiration : Int
  lastAccess : Int
  frequency : Int
deriving Repr, DecidableEq

/-- Adapter contents keyed by fingerprint.  The gob round trip
(`BytesToResponse ∘ Response.Bytes`) is the identity, so records are
stored directly and decoding never fails. -/
abbrev CacheState := List (Nat × CachedResponse)

/-- Adapter `Get`. -/
def cacheGet (st : CacheState) (k : Nat) : Option CachedResponse :=
  (st.find? (fun p => p.1 == k)).map (·.2)

/-- Adapter `Set` (clobbers any previous entry for the key). -/
def cacheSet (st : CacheState) (k : Nat) (v : CachedResponse) : CacheState :=
  (k, v) :: st.filter (fun p => p.1 != k)

/-- Adapter `Release` (idempotent removal). -/
def cacheRelease (st : CacheState) (k : Nat) : CacheState :=
  st.filter (fun p => p.1 != k)

/-- What a downstream handler does with its response writer: its explicit
`WriteHeader` call if any, its successive `Write` calls, and the header
map it leaves on the writer. -/
structure NextResult where
  status : Option Nat
  writes : List Bytes
  header : List (String × List String)
deriving Repr, DecidableEq

/-- The body captured by `cache.responseWriter`: each `Write` overwrites
the previous one (`w.body = b`), so only the last write is kept. -/
def capturedBody (writes : List Bytes) : Bytes :=
  writes.getLast?.getD []

/-- The response the middleware hands its own response writer: explicit
status (if any), header entries, and the sequence of writes. -/
structure HttpResponse where
  status : Option Nat
  header : List (String × List String)
  body : List Bytes
deriving Repr, DecidableEq

/-- Outcome of one request through the cache middleware. -/
structure CacheOutcome where
  resp : HttpResponse
  state : CacheState
  nextInvoked : Bool
deriving Repr, DecidableEq

/-- Cache middleware configuration. -/
structure CacheConfig where
  refreshKey : String
  methods : List String
  ttl : Int
  writeExpiresHeader : Bool
deriving Repr, DecidableEq

/-- `Cache.cacheableMethod`. -/
def cacheableMethod (cfg : CacheConfig) (m : String) : Bool :=
  cfg.methods.contains m

/-- Joining a multi-valued header on the hit path
(`w.Header().Set(k, strings.Join(v, ","))`). -/
def joinHeaders (h : List (String × List String)) :
    List (String × List String) :=
  h.map (fun p => (p.1, [String.intercalate "," p.2]))

/-- The fingerprint the middleware computes for a request before any
refresh handling: sorted query, URL-only hash, URL+body hash for a POST
with a body. -/
def fingerprintOf (r : Request) : Nat :=
  let q := sortURLParams r.query
  let url := urlString r.path q
  if r.method == "POST" then
    match r.body with
    | some b => generateKeyWithBody url b
    | none => generateKey url
  else generateKey url

/-- The key recomputed on the refresh branch: the refresh parameter is
deleted from the (sorted) query, the URL re-encoded, and `generateKey`
applied to the stripped URL — without the body, whatever the method. -/
def refreshedKey (cfg : CacheConfig) (r : Request) : Nat :=
  generateKey (urlString r.path (eraseParam (sortURLParams r.query) cfg.refreshKey))

/-- The request after `sortURLParams` has canonicalised its query. -/
def sortedRequest (r : Request) : Request :=
  { r with query := sortURLParams r.query }

/-- The request after the refresh branch has deleted the refresh parameter
and re-encoded the URL. -/
def strippedRequest (cfg : CacheConfig) (r : Request) : Request :=
  { r with query := eraseParam (sortURLParams r.query) cfg.refreshKey }

/-- The store-after-downstream tail of `cachedHTTPHandler.ServeHTTP`:
invoke `next`, and if the captured status (zero when `WriteHeader` was
never called) is below 400, store a fresh record with the header
snapshot, `expiration = now + ttl` and `frequency = 1`. -/
def afterDownstream (cfg : CacheConfig) (next : Request → NextResult)
    (now : Int) (st : CacheState) (r : Request) (key : Nat) : CacheOutcome :=
  let nr := next r
  let statusCode := nr.status.getD 0
  let st1 :=
    if statusCode < 400 then
      cacheSet st key
        ⟨capturedBody nr.writes, nr.header, now + cfg.ttl, now, 1⟩
    else st
  ⟨⟨nr.status, nr.header, nr.writes⟩, st1, true⟩

/-- `cachedHTTPHandler.ServeHTTP`: the full per-request protocol of the
cache middleware. -/
def cacheMiddleware (cfg : CacheConfig) (next : Request → NextResult)
    (now : Int) (st : CacheState) (r : Request) : CacheOutcome :=
  if cacheableMethod cfg r.method then
    let r1 := sortedRequest r
    let key := fingerprintOf r
    if hasParam r1.query cfg.refreshKey then
      let r2 := strippedRequest cfg r
      let key2 := refreshedKey cfg r
      afterDownstream cfg next now (cacheRelease st key2) r2 key2
    else
      match cacheGet st key with
      | some response =>
        if now < response.expiration then
          let updated : CachedResponse :=
            { response with lastAccess := now, frequency := response.frequency + 1 }
          let st1 := cacheSet st key updated
          ⟨⟨none,
            joinHeaders response.header ++
              (if cfg.writeExpiresHeader then
                [("Expires", [toString response.expiration])] else []),
            [response.value]⟩, st1, false⟩
        else
          afterDownstream cfg next now (cacheRelease st key) r1 key
      | none => afterDownstream cfg next now st r1 key
  else
    let nr := next r
    ⟨⟨nr.status, nr.header, nr.writes⟩, st, true⟩

/-! ## Tollgate middleware and the assembled pipeline

`tollgateHTTP` embeds `tollgateHTTPHandler.ServeHTTP`: reserve one unit,
500 on error, 402 on denial, otherwise run `next` under a
status-capturing writer initialised to 200 and refund one unit exactly
when the captured status is at least 400, ignoring the refund result.
`assembledPipeline` is `NewJinaProxy`'s composition
`tollgate.HTTPHandlerMiddleware(cache.HTTPHandlerMiddleware(upstream))`:
the tollgate is the outer layer. -/

/-- Observable outcome of one request through the tollgate middleware. -/
structure TollgateResult where
  status : Nat
  body : String
  nextInvoked : Bool
  refundArgs : Option (String × Int)
deriving Repr, DecidableEq

/-- `tollgateHTTPHandler.ServeHTTP`, with the downstream handler's explicit
status abstracted as `nextStatus` and the refund outcome as `refundRes`
(whose value the handler discards). -/
def tollgateHTTP (reserveRes : Except String Bool) (key : String)
    (nextStatus : Option Nat) (refundRes : Except String Bool) :
    TollgateResult :=
  match reserveRes with
  | .error e => ⟨500, e, false, none⟩
  | .ok false => ⟨402, "Insufficient balance", false, none⟩
  | .ok true =>
    let captured := nextStatus.getD 200
    let _ := refundRes
    ⟨captured, "", true, if 400 ≤ captured then some (key, 1) else none⟩

/-- Observable outcome of one request through the assembled proxy. -/
structure PipelineResult where
  resp : HttpResponse
  state : CacheState
  reserveCalls : Nat
  refundCalls : Nat
  upstreamInvoked : Bool
deriving Repr, DecidableEq

/-- The assembled pipeline of `NewJinaProxy`: the tollgate wraps the cache
middleware, which wraps the upstream proxy.  `adapterReserve` is the
tollgate adapter's `Reserve`. -/
def assembledPipeline (adapterReserve : String → Int → Except String Bool)
    (extractKey : Request → String) (cfg : CacheConfig)
    (upstream : Request → NextResult) (now : Int) (st : CacheState)
    (r : Request) : PipelineResult :=
  let key := extractKey r
  match adapterReserve key 1 with
  | .error e => ⟨⟨some 500, [], [strBytes e]⟩, st, 1, 0, false⟩
  | .ok false => ⟨⟨some 402, [], [strBytes "Insufficient balance"]⟩, st, 1, 0, false⟩
  | .ok true =>
    let co := cacheMiddleware cfg upstream now st r
    let captured := (co.resp.status).getD 200
    ⟨co.resp, co.state, 1, if 400 ≤ captured then 1 else 0, co.nextInvoked⟩

/-! ## Concrete scenario states used by the claim evaluations -/

/-- Post-reserve state of the C5 and C1 scenario: quota 5 decremented to 4
and the metric-minute counter created at 1. -/
def postReserveState : RedisState :=
  ⟨[("service_jina:720", 1), ("quota:k1", 4)], []⟩

/-- Post-set-and-reserve state of the C5 scenario. -/
def postSetReserveState : RedisState :=
  ⟨[("usage:k1:jina:720", 1)],
   [("quota:k1", [("last_used", 999), ("service_jina", 2)])]⟩

/-- The cache configuration assembled by `NewCache` in cmd/cachev1:
GET and POST cacheable, 24-hour TTL. -/
def cachev1Cfg : CacheConfig := ⟨"refresh", ["GET", "POST"], 86400, false⟩

/-- A GET request used in the C2 scenario. -/
def hitReq : Request := ⟨"GET", "/jina/https://example.com", [], none⟩

/-- A cache state holding a fresh entry for `hitReq`'s fingerprint. -/
def hitState : CacheState :=
  [(fingerprintOf hitReq,
    ⟨strBytes "hello", [("Content-Type", ["text/plain"])], 1000, 0, 1⟩)]

/-- The SecretKey adapter's `Reserve` for secret "secret". -/
def secretAdapter : String → Int → Except String Bool := fun k _ =>
  if k == "secret" then .ok true else .error "invalid key"

/-- The assembled pipeline run on a fresh cache hit. -/
def hitRun : PipelineResult :=
  assembledPipeline secretAdapter (fun _ => "secret") cachev1Cfg
    (fun _ => ⟨some 200, [strBytes "upstream"], []⟩) 100 hitState hitReq

/-- A POST refresh request whose fingerprint would cover the body. -/
def postRefreshReq : Request :=
  ⟨"POST", "/serper/search", [("refresh", ["1"])], some (strBytes "qbody")⟩

/-- The same POST without the refresh parameter. -/
def strippedPostReq : Request :=
  ⟨"POST", "/serper/search", [], some (strBytes "qbody")⟩

/-- The cache middleware run on the POST refresh request. -/
def postRefreshRun : CacheOutcome :=
  cacheMiddleware cachev1Cfg (fun _ => ⟨some 200, [strBytes "resp"], []⟩)
    50 [] postRefreshReq

/-- The request of the C10 counterexample scenario. -/
def twoWriteReq : Request := ⟨"GET", "/r/two", [], none⟩

/-- An upstream handler that writes its body in two `Write` calls. -/
def twoWriteUpstream : Request → NextResult := fun _ =>
  ⟨some 200, [strBytes "he", strBytes "llo"], [("X", ["1"])]⟩

/-- The miss run of the C10 counterexample. -/
def twoWriteMiss : CacheOutcome :=
  cacheMiddleware cachev1Cfg twoWriteUpstream 0 [] twoWriteReq

/-- The subsequent hit run of the C10 counterexample. -/
def twoWriteHit : CacheOutcome :=
  cacheMiddleware cachev1Cfg twoWriteUpstream 1 twoWriteMiss.state
    twoWriteReq

/-! ## Association-list lemmas -/

theorem find?_filter_ne {κ α : Type} [DecidableEq κ] (l : List (κ × α))
    (k k2 : κ) (h : k2 ≠ k) :
    (l.filter (fun p => p.1 != k)).find? (fun p => p.1 == k2) =
      l.find? (fun p => p.1 == k2) := by
  induction l with
  | nil => rfl
  | cons a t ih =>
    cases hbk : (a.1 == k2) with
    | false =>
      by_cases hak : a.1 = k
      · have hkk2 : (k == k2) = false := by
          simp only [beq_eq_false_iff_ne]
          exact Ne.symm h
        simp [List.filter_cons, List.find?_cons, hak, hbk, hkk2, ih]
      · simp [List.filter_cons, List.find?_cons, hak, hbk, ih]
    | true =>
      have hak : a.1 ≠ k := by rw [eq_of_beq hbk]; exact h
      simp [List.filter_cons, List.find?_cons, hak, hbk]

theorem find?_filter_self {κ α : Type} [DecidableEq κ] (l : List (κ × α))
    (k : κ) :
    (l.filter (fun p => p.1 != k)).find? (fun p => p.1 == k) = none := by
  induction l with
  | nil => rfl
  | cons a t ih =>
    by_cases hak : a.1 = k
    · simp [List.filter_cons, hak, ih]
    · simp [List.filter_cons, hak, List.find?_cons, ih]

/-! ## RedisState operation lemmas -/

namespace RedisState

theorem strLookup_set (st : RedisState) (k k2 : String) (v : Int) :
    (st.set k v).strLookup k2 = if k2 = k then some v else st.strLookup k2 := by
  by_cases h : k2 = k
  · subst h; simp [set, strLookup, List.find?_cons]
  · have hk : (k == k2) = false := by simp; exact fun e => h e.symm
    simp [set, strLookup, List.find?_cons, hk, h, find?_filter_ne _ _ _ h]

theorem isStr_set (st : RedisState) (k k2 : String) (v : Int) :
    (st.set k v).isStr k2 = if k2 = k then true else st.isStr k2 := by
  by_cases h : k2 = k
  · subst h; simp [set, isStr, List.find?_cons]
  · have hk : (k == k2) = false := by simp; exact fun e => h e.symm
    simp [set, isStr, List.find?_cons, hk, h, find?_filter_ne _ _ _ h]

theorem isHash_set (st : RedisState) (k k2 : String) (v : Int) :
    (st.set k v).isHash k2 = if k2 = k then false else st.isHash k2 := by
  by_cases h : k2 = k
  · subst h; simp [set, isHash, find?_filter_self]
  · simp [set, isHash, h, find?_filter_ne _ _ _ h]

theorem incrBy_eq (st : RedisState) (k : String) (n : Int)
    (h : st.isHash k = false) :
    st.incrBy k n = .ok (st.set k ((st.strLookup k).getD 0 + n),
      (st.strLookup k).getD 0 + n) := by
  simp [incrBy, h]

theorem hashLookup_set (st : RedisState) (k k2 f : String) (v : Int) :
    (st.set k v).hashLookup k2 f =
      if k2 = k then none else st.hashLookup k2 f := by
  by_cases h : k2 = k
  · subst h
    unfold set hashLookup
    rw [if_pos rfl]
    show (match (st.hashes.filter (fun p => p.1 != k2)).find?
        (fun p => p.1 == k2) with
      | none => none
      | some (_, fields) => (fields.find? (fun p => p.1 == f)).map (·.2)) = none
    rw [find?_filter_self]
  · simp [set, hashLookup, h, find?_filter_ne _ _ _ h]

theorem hset_eq (st : RedisState) (k f : String) (v : Int)
    (h : st.isStr k = false) :
    ∃ st1, st.hset k f v = .ok st1 := by
  simp [hset, h]

theorem get_ok_some (st : RedisState) (k : String) (v : Int) :
    st.get k = .ok (some v) ↔
      st.isHash k = false ∧ st.strLookup k = some v := by
  unfold get
  by_cases h : st.isHash k = true <;> simp [h]

theorem hget_ok (st : RedisState) (k f : String) (o : Option Int) :
    st.hget k f = .ok o ↔ st.isStr k = false ∧ st.hashLookup k f = o := by
  unfold hget
  by_cases h : st.isStr k = true <;> simp [h]

theorem isStr_hset (st : RedisState) (k f : String) (v : Int)
    (st1 : RedisState) (h : st.hset k f v = .ok st1) (k2 : String) :
    st1.isStr k2 = st.isStr k2 := by
  unfold hset at h
  split at h
  · exact absurd h (by simp)
  · cases h; rfl

theorem isHash_hset (st : RedisState) (k f : String) (v : Int)
    (st1 : RedisState) (h : st.hset k f v = .ok st1) (k2 : String) :
    st1.isHash k2 = if k2 = k then true else st.isHash k2 := by
  unfold hset at h
  split at h
  · exact absurd h (by simp)
  · cases h
    by_cases h2 : k2 = k
    · subst h2; simp [isHash, List.find?_cons]
    · simp [isHash, List.find?_cons, h2, Ne.symm h2,
        find?_filter_ne _ _ _ h2]

theorem hashLookup_hset (st : RedisState) (k f : String) (v : Int)
    (st1 : RedisState) (h : st.hset k f v = .ok st1) (k2 f2 : String) :
    st1.hashLookup k2 f2 =
      if k2 = k then (if f2 = f then some v else st.hashLookup k f2)
      else st.hashLookup k2 f2 := by
  unfold hset at h
  split at h
  · exact absurd h (by simp)
  · cases h
    by_cases h2 : k2 = k
    · subst h2
      by_cases h3 : f2 = f
      · subst h3; simp [hashLookup, List.find?_cons]
      · simp only [hashLookup, List.find?_cons, beq_self_eq_true, if_pos rfl,
          if_pos, h3, if_neg h3]
        have hf : (f == f2) = false := by
          simp only [beq_eq_false_iff_ne]; exact fun e => h3 e.symm
        simp only [hf]
        cases hfind : st.hashes.find? (fun p => p.1 == k2) with
        | none => simp [find?_filter_ne _ _ _ h3]
        | some p => simp [find?_filter_ne _ _ _ h3]
    · simp [hashLookup, List.find?_cons, h2, Ne.symm h2,
        find?_filter_ne _ _ _ h2]

end RedisState

/-! ## Cache adapter lemmas -/

theorem cacheGet_set (st : CacheState) (k k2 : Nat) (v : CachedResponse) :
    cacheGet (cacheSet st k v) k2 = if k2 = k then some v else cacheGet st k2 := by
  by_cases h : k2 = k
  · subst h; simp [cacheSet, cacheGet, List.find?_cons]
  · have hk : (k == k2) = false := by simp; exact fun e => h e.symm
    simp [cacheSet, cacheGet, List.find?_cons, hk, h, find?_filter_ne _ _ _ h]

theorem cacheGet_release_self (st : CacheState) (k : Nat) :
    cacheGet (cacheRelease st k) k = none := by
  simp [cacheRelease, cacheGet, find?_filter_self]

/-- Helper: a successful set-and-reserve write sequence returns the
stringified remainder with status OK and leaves the remainder in the
quota hash field (for a field other than the `last_used` bookkeeping
field). -/
theorem setAndReserveWrite_ok (st : RedisState) (qk uk sk : String)
    (rem amount ts : Int) (st1 : RedisState) (out status : String)
    (h : setAndReserveWrite st qk uk sk rem amount ts =
      .ok (st1, out, status)) :
    out = toString rem ∧ status = "OK" ∧
    (sk ≠ "last_used" → st1.hashLookup qk sk = some rem) := by
  unfold setAndReserveWrite at h
  split at h
  · exact absurd h (by simp)
  · rename_i sta ha
    split at h
    · exact absurd h (by simp)
    · rename_i stb hb
      split at h
      · exact absurd h (by simp)
      · rename_i st3 x hc
        have hout : st1 = st3 ∧ out = toString rem ∧ status = "OK" := by
          cases h; exact ⟨rfl, rfl, rfl⟩
        obtain ⟨hst1, hout, hstatus⟩ := hout
        refine ⟨hout, hstatus, ?_⟩
        intro hsk
        have hbqk : stb.isHash qk = true := by
          rw [RedisState.isHash_hset sta qk "last_used" ts stb hb qk,
            if_pos rfl]
        have hc2 : stb.isHash uk = false ∧ st3 = stb.set uk
            ((stb.strLookup uk).getD 0 + amount) := by
          unfold RedisState.incrBy at hc
          split at hc
          · exact absurd hc (by simp)
          · rename_i hku
            cases hc
            exact ⟨by simpa using hku, rfl⟩
        obtain ⟨hku, hp⟩ := hc2
        have hne : qk ≠ uk := by
          intro e; rw [e] at hbqk; rw [hbqk] at hku; exact absurd hku (by simp)
        rw [hst1, hp, RedisState.hashLookup_set, if_neg hne,
          RedisState.hashLookup_hset sta qk "last_used" ts stb hb qk sk,
          if_pos rfl, if_neg hsk,
          RedisState.hashLookup_hset st qk sk rem sta ha qk sk,
          if_pos rfl, if_pos rfl]

/-! ## Claim C5 -/

/-- C5: the quota cell value is never negative.  In the reserve script a
successful `OK` with `has_quota = true` implies the previous value was at
least the requested amount, the returned remainder is that value minus the
amount (hence nonnegative), and the post-state cell holds it; in the
set-and-reserve script an `OK` likewise implies the guarding comparison
passed (against the existing value, or against the initial quota when the
cell was absent), the stringified remainder is nonnegative, and the
post-state hash field holds it. -/
theorem quota_cell_never_negative :
    (∀ (st : RedisState) (qk mk : String) (amount ts : Int)
        (st1 : RedisState) (rem : Int),
        reserveLua st qk mk true amount ts = .ok (st1, rem, "OK") →
        ∃ cur, st.strLookup qk = some cur ∧ amount ≤ cur ∧
          rem = cur - amount ∧ 0 ≤ rem ∧
          (qk ≠ mk ++ ":" ++ toString ts → st1.strLookup qk = some rem)) ∧
    (∀ (st : RedisState) (qk uk sk : String) (iq amount ts : Int)
        (st1 : RedisState) (out : String),
        setAndReserveLua st qk uk sk iq amount ts = .ok (st1, out, "OK") →
        ∃ rem : Int, out = toString rem ∧ 0 ≤ rem ∧
          ((∃ cur, st.hashLookup qk sk = some cur ∧ amount ≤ cur ∧
              rem = cur - amount) ∨
            (st.hashLookup qk sk = none ∧ amount ≤ iq ∧
              rem = iq - amount)) ∧
          (sk ≠ "last_used" → st1.hashLookup qk sk = some rem)) := by
  constructor
  · intro st qk mk amount ts st1 rem h
    simp only [reserveLua, if_true] at h
    split at h
    · exact absurd h (by simp)
    · exact absurd h (by simp)
    · rename_i remaining hg
      split at h
      · exact absurd h (by simp)
      · rename_i hge
        split at h
        · exact absurd h (by simp)
        · rename_i st2 x hi
          have hrem : rem = remaining - amount ∧ st1 = st2 := by
            cases h; exact ⟨rfl, rfl⟩
          obtain ⟨hrem, hst⟩ := hrem
          rw [RedisState.get_ok_some] at hg
          obtain ⟨_, hcur⟩ := hg
          have hle : amount ≤ remaining := by omega
          refine ⟨remaining, hcur, hle, hrem, by omega, ?_⟩
          intro hne
          have hst2 : st2 =
              ((st.set qk (remaining - amount)).set
                (mk ++ ":" ++ toString ts)
                ((((st.set qk (remaining - amount)).strLookup
                  (mk ++ ":" ++ toString ts)).getD 0) + amount)) := by
            unfold RedisState.incrBy at hi
            split at hi
            · exact absurd hi (by simp)
            · cases hi; rfl
          subst hst
          rw [hst2, RedisState.strLookup_set, if_neg hne,
            RedisState.strLookup_set, if_pos rfl, hrem]
  · intro st qk uk sk iq amount ts st1 out h
    simp only [setAndReserveLua] at h
    split at h
    · exact absurd h (by simp)
    · rename_i hh
      split at h
      · exact absurd h (by simp)
      · rename_i hge
        have hnone : st.hashLookup qk sk = none :=
          ((RedisState.hget_ok st qk sk none).mp hh).2
        obtain ⟨hout, _, hpost⟩ :=
          setAndReserveWrite_ok st qk uk sk (iq - amount) amount ts st1
            out "OK" h
        exact ⟨iq - amount, hout, by omega,
          Or.inr ⟨hnone, by omega, rfl⟩, hpost⟩
    · rename_i remaining hh
      split at h
      · exact absurd h (by simp)
      · rename_i hge
        have hsome : st.hashLookup qk sk = some remaining :=
          ((RedisState.hget_ok st qk sk (some remaining)).mp hh).2
        obtain ⟨hout, _, hpost⟩ :=
          setAndReserveWrite_ok st qk uk sk (remaining - amount) amount ts
            st1 out "OK" h
        exact ⟨remaining - amount, hout, by omega,
          Or.inl ⟨remaining, hsome, by omega, rfl⟩, hpost⟩

/-- Witness for C5: both parts applied at concrete reservations. -/
theorem quota_cell_never_negative_witness :
    (∃ cur, (RedisState.mk [("quota:k1", 5)] []).strLookup "quota:k1" =
        some cur ∧ (1 : Int) ≤ cur ∧ (4 : Int) = cur - 1 ∧
        (0 : Int) ≤ (4 : Int) ∧
        ("quota:k1" ≠ "service_jina" ++ ":" ++ toString (720 : Int) →
          postReserveState.strLookup "quota:k1" = some 4)) ∧
    (∃ rem : Int, "2" = toString rem ∧ (0 : Int) ≤ rem ∧
        ((∃ cur, (RedisState.mk [] []).hashLookup "quota:k1" "service_jina" =
            some cur ∧ (1 : Int) ≤ cur ∧ rem = cur - 1) ∨
          ((RedisState.mk [] []).hashLookup "quota:k1" "service_jina" =
            none ∧ (1 : Int) ≤ (3 : Int) ∧ rem = 3 - 1)) ∧
        ("service_jina" ≠ "last_used" →
          postSetReserveState.hashLookup "quota:k1" "service_jina" =
            some rem)) :=
  ⟨quota_cell_never_negative.1 (RedisState.mk [("quota:k1", 5)] [])
      "quota:k1" "service_jina" 1 720 postReserveState 4 (by decide),
   quota_cell_never_negative.2 (RedisState.mk [] []) "quota:k1"
      "usage:k1:jina:720" "service_jina" 3 1 999 postSetReserveState "2"
      (by decide)⟩

/-! ## Claim C1 -/

/-- C1 counterexample: a successful reserve of 1 against `quota:k1`
(value 5) followed by the matching refund of 1 against the same key.
The refund script aborts with WRONGTYPE — reserve stored a flat string
while refund reads a hash field of the same key — so the quota cell is
left at 4: the net change is -1, not 0. -/
theorem reserve_refund_pair_changes_quota :
    reserveLua ⟨[("quota:k1", 5)], []⟩ "quota:k1" "service_jina" true 1
      720 = .ok (postReserveState, 4, "OK") ∧
    refundLua postReserveState "quota:k1" "usage:k1:jina:720"
      "service_jina" 1 999 = .error "WRONGTYPE" ∧
    postReserveState.strLookup "quota:k1" ≠ some 5 :=
  ⟨by decide, by decide, by decide⟩

/-- C1 (amended): for every state whose quota cell `quota:{key}` is a hot
flat value of at least the requested amount, the reserve script succeeds
and decrements it, and the matching refund then fails with WRONGTYPE
(reserve uses GET/SET on the flat key, refund uses HGET on the same key
name as a hash), restoring nothing: the net change of the quota cell over
the pair is `-amount`.  Moreover the per-minute usage counter
`usage:{key}:{service}:{minute}` is untouched by both scripts — the
reserve script increments `service_{service}:{minute}` instead (KEYS[2]
is the `service_…` key in the Go call), which nets `+amount` there. -/
theorem reserve_refund_pair_nets_minus_amount
    (st : RedisState) (k svc : String)
    (amount cur minuteTs refundTs : Int)
    (hq : st.strLookup ("quota:" ++ k) = some cur)
    (hnh : st.isHash ("quota:" ++ k) = false)
    (hnh2 : st.isHash ("service_" ++ svc ++ ":" ++ toString minuteTs) = false)
    (hle : amount ≤ cur)
    (hd1 : "service_" ++ svc ++ ":" ++ toString minuteTs ≠ "quota:" ++ k)
    (hd2 : "usage:" ++ k ++ ":" ++ svc ++ ":" ++ toString minuteTs ≠
      "quota:" ++ k)
    (hd3 : "usage:" ++ k ++ ":" ++ svc ++ ":" ++ toString minuteTs ≠
      "service_" ++ svc ++ ":" ++ toString minuteTs) :
    ∃ st1,
      reserveLua st ("quota:" ++ k) ("service_" ++ svc) true amount
        minuteTs = .ok (st1, cur - amount, "OK") ∧
      refundLua st1 ("quota:" ++ k)
        ("usage:" ++ k ++ ":" ++ svc ++ ":" ++ toString minuteTs)
        ("service_" ++ svc) amount refundTs = .error "WRONGTYPE" ∧
      st1.strLookup ("quota:" ++ k) = some (cur - amount) ∧
      st1.strLookup
          ("usage:" ++ k ++ ":" ++ svc ++ ":" ++ toString minuteTs) =
        st.strLookup
          ("usage:" ++ k ++ ":" ++ svc ++ ":" ++ toString minuteTs) ∧
      st1.strLookup ("service_" ++ svc ++ ":" ++ toString minuteTs) =
        some ((st.strLookup
          ("service_" ++ svc ++ ":" ++ toString minuteTs)).getD 0 +
            amount) := by
  have hget : st.get ("quota:" ++ k) = .ok (some cur) :=
    (RedisState.get_ok_some st ("quota:" ++ k) cur).mpr ⟨hnh, hq⟩
  have hmkh : (st.set ("quota:" ++ k) (cur - amount)).isHash
      ("service_" ++ svc ++ ":" ++ toString minuteTs) = false := by
    rw [RedisState.isHash_set, if_neg hd1]; exact hnh2
  have hlook : (st.set ("quota:" ++ k) (cur - amount)).strLookup
      ("service_" ++ svc ++ ":" ++ toString minuteTs) =
      st.strLookup ("service_" ++ svc ++ ":" ++ toString minuteTs) := by
    rw [RedisState.strLookup_set, if_neg hd1]
  have hincr := RedisState.incrBy_eq (st.set ("quota:" ++ k) (cur - amount))
    ("service_" ++ svc ++ ":" ++ toString minuteTs) amount hmkh
  rw [hlook] at hincr
  refine ⟨(st.set ("quota:" ++ k) (cur - amount)).set
    ("service_" ++ svc ++ ":" ++ toString minuteTs)
    ((st.strLookup ("service_" ++ svc ++ ":" ++ toString minuteTs)).getD 0 +
      amount), ?_, ?_, ?_, ?_, ?_⟩
  · unfold reserveLua
    rw [hget]
    simp only [if_true]
    rw [if_neg (by omega), hincr]
  · have hstr : ((st.set ("quota:" ++ k) (cur - amount)).set
        ("service_" ++ svc ++ ":" ++ toString minuteTs)
        ((st.strLookup
          ("service_" ++ svc ++ ":" ++ toString minuteTs)).getD 0 +
            amount)).isStr ("quota:" ++ k) = true := by
      rw [RedisState.isStr_set, if_neg (Ne.symm hd1),
        RedisState.isStr_set, if_pos rfl]
    unfold refundLua RedisState.hget
    rw [hstr]
    rfl
  · rw [RedisState.strLookup_set, if_neg (Ne.symm hd1),
      RedisState.strLookup_set, if_pos rfl]
  · rw [RedisState.strLookup_set, if_neg hd3,
      RedisState.strLookup_set, if_neg hd2]
  · rw [RedisState.strLookup_set, if_pos rfl]

/-- Witness for C1 (amended), at quota 5 and amount 1. -/
theorem reserve_refund_pair_nets_minus_amount_witness :
    ∃ st1,
      reserveLua ⟨[("quota:k1", 5)], []⟩ ("quota:" ++ "k1")
        ("service_" ++ "jina") true 1 720 = .ok (st1, 5 - 1, "OK") ∧
      refundLua st1 ("quota:" ++ "k1")
        ("usage:" ++ "k1" ++ ":" ++ "jina" ++ ":" ++ toString (720 : Int))
        ("service_" ++ "jina") 1 999 = .error "WRONGTYPE" ∧
      st1.strLookup ("quota:" ++ "k1") = some (5 - 1) ∧
      st1.strLookup
          ("usage:" ++ "k1" ++ ":" ++ "jina" ++ ":" ++
            toString (720 : Int)) =
        RedisState.strLookup ⟨[("quota:k1", 5)], []⟩
          ("usage:" ++ "k1" ++ ":" ++ "jina" ++ ":" ++
            toString (720 : Int)) ∧
      st1.strLookup ("service_" ++ "jina" ++ ":" ++ toString (720 : Int)) =
        some ((RedisState.strLookup ⟨[("quota:k1", 5)], []⟩
          ("service_" ++ "jina" ++ ":" ++ toString (720 : Int))).getD 0 +
            1) :=
  reserve_refund_pair_nets_minus_amount ⟨[("quota:k1", 5)], []⟩ "k1"
    "jina" 1 5 720 999 (by decide) (by decide) (by decide) (by decide)
    (by decide) (by decide) (by decide)

/-! ## Claim C4 -/

/-- C4: the claim fails — `QuotaManager.Reserve` is not panic-free on the
result shapes of reserve.lua.  The script returns its first element as a
Lua number on all three paths, go-redis delivers it as an integer, and the
unchecked type assertion `values[0].(string)` panics on an integer.  The
conjuncts evaluate the embedded code at the failing inputs: the script run
on a cold key yields `(-1, LOAD_REQUIRED)`, and the Go-side conversion of
each delivered shape panics — including the full `Reserve` even when its
set-and-reserve leg would succeed. -/
theorem reserveGo_panics_on_reserve_script_results :
    reserveLua ⟨[], []⟩ "quota:k1" "service_jina" true 1 720 =
      .ok (⟨[], []⟩, -1, "LOAD_REQUIRED") ∧
    reserveGoPost (deliverIntStr (-1, "LOAD_REQUIRED")) (.ret false none) =
      .panicked ∧
    reserveGoPost (deliverIntStr (4, "OK")) (.ret false none) = .panicked ∧
    reserveGoPost (deliverIntStr (0, "EXHAUSTED")) (.ret false none) =
      .panicked ∧
    reserveGo true (.ok (deliverIntStr (-1, "LOAD_REQUIRED"))) (.ok 3)
      (.ok (deliverStrStr ("2", "OK"))) = .panicked :=
  ⟨rfl, rfl, rfl, rfl, rfl⟩

/-! ## Claim C3 -/

/-- The additive upsert adds its amount to the durable total of its
tuple. -/
theorem durableAmount_upsert (db : List UsageRow) (r : UsageRow) :
    durableAmount (upsertMinuteUsage db r) r.apiKeyId r.serviceId
      r.minuteTs = durableAmount db r.apiKeyId r.serviceId r.minuteTs +
        r.amount := by
  unfold upsertMinuteUsage durableAmount
  cases hf : db.find? (fun x => x.apiKeyId == r.apiKeyId &&
      x.serviceId == r.serviceId && x.minuteTs == r.minuteTs) with
  | none => simp [hf, List.find?_cons]
  | some x =>
    have hx := List.find?_some hf
    simp only [Bool.and_eq_true, beq_iff_eq] at hx
    simp [hf, List.find?_cons, hx.1.1, hx.1.2, hx.2]

/-- C3 counterexample: a usage counter written with the reserve path's key
shape (`usage:{key_string}:{service_name}:{minute}`, positive value) is
skipped entirely by `Archive`: after a clean archive run the key still
exists in Redis with its value, and the durable table received nothing —
the archiver requires the second and third segments to parse as integers,
but the reserve path writes the API key string and service name there. -/
theorem archive_leaves_reserve_path_counter :
    archive ⟨[("usage:k1:jina:1200", 3)], []⟩ [] =
      (⟨[("usage:k1:jina:1200", 3)], []⟩, []) ∧
    RedisState.strLookup ⟨[("usage:k1:jina:1200", 3)], []⟩
      "usage:k1:jina:1200" = some 3 ∧
    parseUsageKey "usage:k1:jina:1200" = none := by
  refine ⟨by decide, by decide, by decide⟩

/-- C3 (amended): over a keyspace holding one usage counter, a clean
`Archive` run deletes the counter and adds its value to the durable total
exactly when all three trailing segments of the key parse as base-10
integers and the value is positive; a counter whose key does not parse —
in particular every counter keyed by an API key string and service name
as the reserve path builds them — is left in Redis untouched and nothing
reaches the durable table. -/
theorem archive_drains_numeric_counters_only :
    (∀ (k : String) (a s m v : Int) (db : List UsageRow),
        matchesUsage k = true →
        parseUsageKey k = some (a, s, m) →
        0 < v →
        (archive ⟨[(k, v)], []⟩ db).1.strLookup k = none ∧
        durableAmount (archive ⟨[(k, v)], []⟩ db).2 a s m =
          durableAmount db a s m + v) ∧
    (∀ (k : String) (v : Int) (db : List UsageRow),
        parseUsageKey k = none →
        archive ⟨[(k, v)], []⟩ db = (⟨[(k, v)], []⟩, db)) := by
  constructor
  · intro k a s m v db hpre hparse hv
    have harch : archive ⟨[(k, v)], []⟩ db =
        (⟨[], []⟩, upsertMinuteUsage db ⟨a, s, m, v⟩) := by
      unfold archive archiveStep
      simp only [List.map, List.append_nil, List.foldl, hpre, hparse]
      rw [if_neg (by simp)]
      have hdel : (RedisState.mk [(k, v)] []).getDel k =
          (.ok (some v), ⟨[], []⟩) := by
        unfold RedisState.getDel RedisState.isHash RedisState.strLookup
        simp [List.find?_cons, List.filter_cons]
      rw [hdel]
      show (if v ≤ 0 then ((⟨[], []⟩ : RedisState), db)
        else (⟨[], []⟩, upsertMinuteUsage db ⟨a, s, m, v⟩)) = _
      rw [if_neg (by omega)]
    rw [harch]
    constructor
    · simp [RedisState.strLookup]
    · exact durableAmount_upsert db ⟨a, s, m, v⟩
  · intro k v db hparse
    unfold archive archiveStep
    simp only [List.map, List.append_nil, List.foldl, hparse]
    by_cases hpre : matchesUsage k = true
    · simp [hpre, hparse]
    · simp [Bool.not_eq_true] at hpre
      simp [hpre]

/-- Witness for C3 (amended): a numeric counter is drained and a
reserve-path counter is skipped. -/
theorem archive_drains_numeric_counters_only_witness :
    ((archive ⟨[("usage:12:7:1200", 3)], []⟩ []).1.strLookup
        "usage:12:7:1200" = none ∧
      durableAmount (archive ⟨[("usage:12:7:1200", 3)], []⟩ []).2 12 7
        1200 = durableAmount [] 12 7 1200 + 3) ∧
    archive ⟨[("usage:k2:serper:60", 9)], []⟩ [] =
      (⟨[("usage:k2:serper:60", 9)], []⟩, []) :=
  ⟨archive_drains_numeric_counters_only.1 "usage:12:7:1200" 12 7 1200 3 []
      (by decide) (by decide) (by decide),
   archive_drains_numeric_counters_only.2 "usage:k2:serper:60" 9 []
      (by decide)⟩

/-! ## Claim C7 -/

/-- C7: given a well-formed delivered result (first element a string that
parses as an integer, as the Go conversion requires),
`QuotaManager.Reserve` maps `OK` to `(true, nil)`, `EXHAUSTED` to
`(false, nil)`, and `LOAD_REQUIRED` to the result of `setAndReserve`
(which loads the durable quota and runs the set-and-reserve script,
mapping its `OK`/`EXHAUSTED` the same way); any other status, any script
transport failure, and any quota-load failure yield `(false, err)`. -/
theorem reserve_status_mapping
    (s s2 : String) (n n2 q : Int)
    (savRun0 : Except String (List RVal))
    (hs : goParseInt s = some n) (hs2 : goParseInt s2 = some n2) :
    reserveGo true (.ok [RVal.str s, RVal.str "OK"]) (.ok q) savRun0 =
      .ret true none ∧
    reserveGo true (.ok [RVal.str s, RVal.str "EXHAUSTED"]) (.ok q)
      savRun0 = .ret false none ∧
    (∀ quotaLoad savRun,
      reserveGo true (.ok [RVal.str s, RVal.str "LOAD_REQUIRED"])
        quotaLoad savRun = setAndReserveGo true quotaLoad savRun) ∧
    setAndReserveGo true (.ok q) (.ok [RVal.str s2, RVal.str "OK"]) =
      .ret true none ∧
    setAndReserveGo true (.ok q) (.ok [RVal.str s2, RVal.str "EXHAUSTED"]) =
      .ret false none ∧
    (∀ status, status ≠ "OK" → status ≠ "EXHAUSTED" →
      status ≠ "LOAD_REQUIRED" →
      (reserveGo true (.ok [RVal.str s, RVal.str status]) (.ok q)
        savRun0).isError = true) ∧
    (∀ e, (reserveGo true (.error e) (.ok q) savRun0).isError = true) ∧
    (∀ e, (setAndReserveGo true (.error e) savRun0).isError = true) ∧
    (∀ e, (setAndReserveGo true (.ok q) (.error e)).isError = true) ∧
    (∀ status, status ≠ "OK" → status ≠ "EXHAUSTED" →
      (setAndReserveGo true (.ok q)
        (.ok [RVal.str s2, RVal.str status])).isError = true) := by
  refine ⟨?_, ?_, ?_, ?_, ?_, ?_, ?_, ?_, ?_, ?_⟩
  · simp [reserveGo, reserveGoPost, hs]
  · simp [reserveGo, reserveGoPost, hs]
  · intro quotaLoad savRun
    simp [reserveGo, reserveGoPost, hs]
  · simp [setAndReserveGo, hs2]
  · simp [setAndReserveGo, hs2]
  · intro status h1 h2 h3
    simp [reserveGo, reserveGoPost, hs, h1, h2, h3, GoReserve.isError]
  · intro e
    simp [reserveGo, GoReserve.isError]
  · intro e
    simp [setAndReserveGo, GoReserve.isError]
  · intro e
    simp [setAndReserveGo, GoReserve.isError]
  · intro status h1 h2
    simp [setAndReserveGo, hs2, h1, h2, GoReserve.isError]

/-- Witness for C7 at concrete parseable remainders. -/
theorem reserve_status_mapping_witness :
    reserveGo true (.ok [RVal.str "4", RVal.str "OK"]) (.ok 3)
      (.ok [RVal.str "2", RVal.str "OK"]) = .ret true none ∧
    reserveGo true (.ok [RVal.str "4", RVal.str "EXHAUSTED"]) (.ok 3)
      (.ok [RVal.str "2", RVal.str "OK"]) = .ret false none ∧
    (∀ quotaLoad savRun,
      reserveGo true (.ok [RVal.str "4", RVal.str "LOAD_REQUIRED"])
        quotaLoad savRun = setAndReserveGo true quotaLoad savRun) ∧
    setAndReserveGo true (.ok 3) (.ok [RVal.str "2", RVal.str "OK"]) =
      .ret true none ∧
    setAndReserveGo true (.ok 3) (.ok [RVal.str "2", RVal.str "EXHAUSTED"]) =
      .ret false none ∧
    (∀ status, status ≠ "OK" → status ≠ "EXHAUSTED" →
      status ≠ "LOAD_REQUIRED" →
      (reserveGo true (.ok [RVal.str "4", RVal.str status]) (.ok 3)
        (.ok [RVal.str "2", RVal.str "OK"])).isError = true) ∧
    (∀ e, (reserveGo true (.error e) (.ok 3)
      (.ok [RVal.str "2", RVal.str "OK"])).isError = true) ∧
    (∀ e, (setAndReserveGo true (.error e)
      (.ok [RVal.str "2", RVal.str "OK"])).isError = true) ∧
    (∀ e, (setAndReserveGo true (.ok 3) (.error e)).isError = true) ∧
    (∀ status, status ≠ "OK" → status ≠ "EXHAUSTED" →
      (setAndReserveGo true (.ok 3)
        (.ok [RVal.str "2", RVal.str status])).isError = true) :=
  reserve_status_mapping "4" "2" 4 2 3 (.ok [RVal.str "2", RVal.str "OK"])
    (by decide) (by decide)

/-! ## Claim C6 -/

/-- C6: the tollgate middleware responds 500 with the error text (next not
invoked) when Reserve errors, 402 "Insufficient balance" (next not
invoked) when Reserve denies, and otherwise invokes next under a
status-capturing writer and calls `Refund(key, 1)` exactly when the
captured status is at least 400, with the refund outcome ignored. -/
theorem tollgate_dispatch_behavior :
    (∀ (e key : String) (ns : Option Nat) (rr : Except String Bool),
        tollgateHTTP (.error e) key ns rr = ⟨500, e, false, none⟩) ∧
    (∀ (key : String) (ns : Option Nat) (rr : Except String Bool),
        tollgateHTTP (.ok false) key ns rr =
          ⟨402, "Insufficient balance", false, none⟩) ∧
    (∀ (key : String) (ns : Option Nat) (rr : Except String Bool),
        (tollgateHTTP (.ok true) key ns rr).nextInvoked = true ∧
        (tollgateHTTP (.ok true) key ns rr).status = ns.getD 200 ∧
        (tollgateHTTP (.ok true) key ns rr).refundArgs =
          (if 400 ≤ ns.getD 200 then some (key, 1) else none)) ∧
    (∀ (key : String) (ns : Option Nat) (rr rr2 : Except String Bool),
        tollgateHTTP (.ok true) key ns rr = tollgateHTTP (.ok true) key ns rr2) :=
  ⟨fun _ _ _ _ => rfl, fun _ _ _ => rfl,
   fun _ _ _ => ⟨rfl, rfl, rfl⟩, fun _ _ _ _ => rfl⟩

/-! ## Claim C10 -/

/-- C10 (amended): a cache miss followed by a fresh hit on the same
fingerprint serves, without invoking the downstream handler again, a
response whose single body write is the bytes of the LAST `Write` call
the upstream made (the capturing writer overwrites its buffer on every
`Write`), whose headers are the comma-joined snapshot taken after the
downstream handler returned, and whose re-stored record has frequency 2 —
the stored record's 1 plus one for this hit — with `last_access` updated
and the expiration preserved. -/
theorem miss_then_hit_round_trip
    (cfg : CacheConfig) (next : Request → NextResult) (now now2 : Int)
    (st : CacheState) (r : Request)
    (hm : cacheableMethod cfg r.method = true)
    (hr : hasParam (sortedRequest r).query cfg.refreshKey = false)
    (hmiss : cacheGet st (fingerprintOf r) = none)
    (hok : (next (sortedRequest r)).status.getD 0 < 400)
    (hfresh : now2 < now + cfg.ttl)
    (hexp : cfg.writeExpiresHeader = false) :
    (cacheMiddleware cfg next now2
        (cacheMiddleware cfg next now st r).state r).nextInvoked = false ∧
    (cacheMiddleware cfg next now2
        (cacheMiddleware cfg next now st r).state r).resp.body =
      [capturedBody (next (sortedRequest r)).writes] ∧
    (cacheMiddleware cfg next now2
        (cacheMiddleware cfg next now st r).state r).resp.header =
      joinHeaders (next (sortedRequest r)).header ∧
    cacheGet (cacheMiddleware cfg next now2
        (cacheMiddleware cfg next now st r).state r).state
        (fingerprintOf r) =
      some ⟨capturedBody (next (sortedRequest r)).writes,
        (next (sortedRequest r)).header, now + cfg.ttl, now2, 1 + 1⟩ := by
  have hst1 : (cacheMiddleware cfg next now st r).state =
      cacheSet st (fingerprintOf r)
        ⟨capturedBody (next (sortedRequest r)).writes,
          (next (sortedRequest r)).header, now + cfg.ttl, now, 1⟩ := by
    unfold cacheMiddleware
    simp only [hm, if_true, hr, Bool.false_eq_true, if_false, hmiss,
      afterDownstream, hok]
  rw [hst1]
  unfold cacheMiddleware
  simp only [hm, if_true, hr, Bool.false_eq_true, if_false,
    cacheGet_set, if_pos rfl, hexp]
  simp only [show (now2 < now + cfg.ttl) = True by simp [hfresh], if_true,
    cacheGet_set, if_pos rfl]
  exact ⟨trivial, trivial, by simp, trivial⟩

/-- C10 counterexample: the upstream writes "he" then "llo" (full body
"hello"); the hit after the miss serves "llo" only — the capturing
writer's `Write` overwrites instead of appending, so the served body does
not match the bytes the upstream wrote across all `Write` calls. -/
theorem hit_body_drops_earlier_writes :
    twoWriteHit.nextInvoked = false ∧
    twoWriteHit.resp.body = [strBytes "llo"] ∧
    twoWriteHit.resp.body ≠ [strBytes "he" ++ strBytes "llo"] := by
  refine ⟨by decide, by decide, by decide⟩

/-- Witness for C10 (amended), with a single-write upstream. -/
theorem miss_then_hit_round_trip_witness :
    (cacheMiddleware cachev1Cfg (fun _ => ⟨some 200, [strBytes "hello"],
        [("X", ["1"])]⟩) 1
        (cacheMiddleware cachev1Cfg (fun _ => ⟨some 200,
          [strBytes "hello"], [("X", ["1"])]⟩) 0 []
          ⟨"GET", "/w", [], none⟩).state
        ⟨"GET", "/w", [], none⟩).nextInvoked = false ∧
    (cacheMiddleware cachev1Cfg (fun _ => ⟨some 200, [strBytes "hello"],
        [("X", ["1"])]⟩) 1
        (cacheMiddleware cachev1Cfg (fun _ => ⟨some 200,
          [strBytes "hello"], [("X", ["1"])]⟩) 0 []
          ⟨"GET", "/w", [], none⟩).state
        ⟨"GET", "/w", [], none⟩).resp.body =
      [capturedBody (((fun (_ : Request) => (⟨some 200,
        [strBytes "hello"], [("X", ["1"])]⟩ : NextResult)))
          (sortedRequest ⟨"GET", "/w", [], none⟩)).writes] ∧
    (cacheMiddleware cachev1Cfg (fun _ => ⟨some 200, [strBytes "hello"],
        [("X", ["1"])]⟩) 1
        (cacheMiddleware cachev1Cfg (fun _ => ⟨some 200,
          [strBytes "hello"], [("X", ["1"])]⟩) 0 []
          ⟨"GET", "/w", [], none⟩).state
        ⟨"GET", "/w", [], none⟩).resp.header =
      joinHeaders [("X", ["1"])] ∧
    cacheGet (cacheMiddleware cachev1Cfg (fun _ => ⟨some 200,
        [strBytes "hello"], [("X", ["1"])]⟩) 1
        (cacheMiddleware cachev1Cfg (fun _ => ⟨some 200,
          [strBytes "hello"], [("X", ["1"])]⟩) 0 []
          ⟨"GET", "/w", [], none⟩).state
        ⟨"GET", "/w", [], none⟩).state
        (fingerprintOf ⟨"GET", "/w", [], none⟩) =
      some ⟨strBytes "hello", [("X", ["1"])], 0 + 86400, 1, 1 + 1⟩ := by
  exact miss_then_hit_round_trip cachev1Cfg
    (fun _ => ⟨some 200, [strBytes "hello"], [("X", ["1"])]⟩) 0 1 []
    ⟨"GET", "/w", [], none⟩ (by decide) (by decide) (by decide)
    (by decide) (by decide) (by decide)

/-! ## Claim C9 -/

/-- C9: after the middleware invokes the downstream handler on a miss or
on the refresh path, an entry is stored at the computed key if and only
if the captured status (zero when `WriteHeader` was never called) is
below 400, and the stored record carries the header snapshot,
`expiration = now + ttl` and `frequency = 1`; on a 4xx/5xx status the key
remains absent.  The downstream handler is always invoked on these
paths. -/
theorem cache_store_iff_success
    (cfg : CacheConfig) (next : Request → NextResult) (now : Int)
    (st : CacheState) (r : Request)
    (hm : cacheableMethod cfg r.method = true) :
    (hasParam (sortedRequest r).query cfg.refreshKey = true →
      cacheGet (cacheMiddleware cfg next now st r).state
          (refreshedKey cfg r) =
        (if (next (strippedRequest cfg r)).status.getD 0 < 400 then
          some ⟨capturedBody (next (strippedRequest cfg r)).writes,
            (next (strippedRequest cfg r)).header, now + cfg.ttl, now, 1⟩
         else none) ∧
      (cacheMiddleware cfg next now st r).nextInvoked = true) ∧
    (hasParam (sortedRequest r).query cfg.refreshKey = false →
      cacheGet st (fingerprintOf r) = none →
      cacheGet (cacheMiddleware cfg next now st r).state
          (fingerprintOf r) =
        (if (next (sortedRequest r)).status.getD 0 < 400 then
          some ⟨capturedBody (next (sortedRequest r)).writes,
            (next (sortedRequest r)).header, now + cfg.ttl, now, 1⟩
         else none) ∧
      (cacheMiddleware cfg next now st r).nextInvoked = true) := by
  constructor
  · intro href
    unfold cacheMiddleware
    simp only [hm, if_true, href, afterDownstream]
    by_cases hs : (next (strippedRequest cfg r)).status.getD 0 < 400
    · simp only [hs, if_true, cacheGet_set, if_pos rfl]
      exact ⟨trivial, trivial⟩
    · simp only [hs, if_false]
      exact ⟨cacheGet_release_self st (refreshedKey cfg r), trivial⟩
  · intro href hmiss
    unfold cacheMiddleware
    simp only [hm, if_true, href, Bool.false_eq_true, if_false, hmiss,
      afterDownstream]
    by_cases hs : (next (sortedRequest r)).status.getD 0 < 400
    · simp only [hs, if_true, cacheGet_set, if_pos rfl]
      exact ⟨trivial, trivial⟩
    · simp only [hs, if_false]
      exact ⟨hmiss, trivial⟩

/-- Witness for C9: the refresh path stores on a 200 and the miss path
leaves the key absent on a 500. -/
theorem cache_store_iff_success_witness :
    (cacheGet (cacheMiddleware cachev1Cfg
          (fun _ => ⟨some 200, [strBytes "b"], [("X", ["1"])]⟩) 10 []
          ⟨"GET", "/r", [("refresh", ["1"])], none⟩).state
        (refreshedKey cachev1Cfg ⟨"GET", "/r", [("refresh", ["1"])], none⟩) =
      (if (200 : Nat) < 400 then
        some ⟨strBytes "b", [("X", ["1"])], 10 + 86400, 10, 1⟩
       else none)) ∧
    (cacheGet (cacheMiddleware cachev1Cfg
          (fun _ => ⟨some 500, [strBytes "err"], []⟩) 10 []
          ⟨"GET", "/q", [], none⟩).state
        (fingerprintOf ⟨"GET", "/q", [], none⟩) = none) := by
  constructor
  · have h := (cache_store_iff_success cachev1Cfg
      (fun _ => ⟨some 200, [strBytes "b"], [("X", ["1"])]⟩) 10 []
      ⟨"GET", "/r", [("refresh", ["1"])], none⟩ (by decide)).1 (by decide)
    exact h.1
  · have h := (cache_store_iff_success cachev1Cfg
      (fun _ => ⟨some 500, [strBytes "err"], []⟩) 10 []
      ⟨"GET", "/q", [], none⟩ (by decide)).2 (by decide) (by decide)
    rw [h.1]
    decide

/-! ## Claim C8 -/

/-- Deleting a parameter commutes with sorting each parameter's values:
both only look at disjoint components of the entries. -/
theorem eraseParam_sortURLParams (q : List (String × List String))
    (k : String) :
    eraseParam (sortURLParams q) k = sortURLParams (eraseParam q k) := by
  unfold eraseParam sortURLParams
  induction q with
  | nil => rfl
  | cons a t ih =>
    by_cases h : a.1 = k
    · simp [List.filter_cons, h, ih]
    · simp [List.filter_cons, h, ih]

/-- C8 (amended): for a request that does not carry a body into the
fingerprint (any non-POST request, or a POST without a body), the key the
refresh branch recomputes over the stripped URL equals the fingerprint of
the same request without the refresh parameter.  (For a POST with a body
the two differ — see the counterexample — because the refresh branch
recomputes the key with `generateKey`, without the body.) -/
theorem refresh_key_matches_stripped_fingerprint
    (cfg : CacheConfig) (r : Request)
    (hb : r.method = "POST" → r.body = none) :
    refreshedKey cfg r =
      fingerprintOf ⟨r.method, r.path, eraseParam r.query cfg.refreshKey,
        r.body⟩ := by
  unfold refreshedKey fingerprintOf
  rw [eraseParam_sortURLParams]
  by_cases hp : r.method = "POST"
  · rw [hb hp]
    simp [hp]
  · simp [hp]

/-- Witness for C8 (amended) on a GET with a refresh parameter. -/
theorem refresh_key_matches_stripped_fingerprint_witness :
    refreshedKey cachev1Cfg
        ⟨"GET", "/r", [("refresh", ["1"]), ("a", ["2"])], none⟩ =
      fingerprintOf ⟨"GET", "/r",
        eraseParam [("refresh", ["1"]), ("a", ["2"])] "refresh", none⟩ := by
  exact refresh_key_matches_stripped_fingerprint cachev1Cfg
    ⟨"GET", "/r", [("refresh", ["1"]), ("a", ["2"])], none⟩ (by decide)

/-- C8 counterexample: for a POST with a body, the refresh branch's
recomputed key differs from the fingerprint of the stripped request (the
body is dropped from the hash), and the middleware stores the new entry
under the former, not under the fingerprint a non-refresh POST of the
same resource would look up. -/
theorem refresh_key_post_body_mismatch :
    refreshedKey cachev1Cfg postRefreshReq ≠
      fingerprintOf strippedPostReq ∧
    cacheGet postRefreshRun.state (fingerprintOf strippedPostReq) = none ∧
    (cacheGet postRefreshRun.state
      (refreshedKey cachev1Cfg postRefreshReq)).isSome = true := by
  refine ⟨by decide, by decide, by decide⟩

/-! ## Claim C2 -/

/-- C2 (amended): in the pipeline assembled by `NewJinaProxy` the tollgate
wraps the cache middleware, so the adapter's `Reserve` is invoked exactly
once for every request — including requests served from the cache. -/
theorem pipeline_reserves_on_every_request
    (adapterReserve : String → Int → Except String Bool)
    (extractKey : Request → String) (cfg : CacheConfig)
    (upstream : Request → NextResult) (now : Int) (st : CacheState)
    (r : Request) :
    (assembledPipeline adapterReserve extractKey cfg upstream now st
      r).reserveCalls = 1 := by
  unfold assembledPipeline
  cases h : adapterReserve (extractKey r) 1 with
  | error e => simp [h]
  | ok b => cases b <;> simp [h]

/-- C2 counterexample: a request served from the cache (upstream never
invoked, body is the cached bytes) for which the tollgate's Reserve was
nevertheless invoked — the assembled pipeline has the tollgate outside
the cache, so a cache hit does consume quota. -/
theorem cache_hit_still_reserves :
    hitRun.upstreamInvoked = false ∧
    hitRun.resp.body = [strBytes "hello"] ∧
    hitRun.reserveCalls = 1 := by
  decide
